import Mathlib

/-!
Shallow embedding of the live code-execution and view-synchronization loop
of the molstar-components repository: the EditorWithViewer controller
(EditorWithViewer.tsx), the MolViewEditor code surface (MolViewEditor.tsx)
and the MolstarViewer host (the unnamed MolstarViewer source file).
External collaborators (StoryManager, the Monaco widget, the CDN-provided
molstar engine) are supplied as explicit parameters; browser timers are an
explicit environment of armed timers.
-/

/-- Log level of a log entry, from the LogEntry interface of
EditorWithViewer.tsx (level is one of info, error, success). -/
inductive LogLevel where
  | info
  | error
  | success
  deriving DecidableEq, Repr

/-- Log entry of the execution history, following the LogEntry interface
of EditorWithViewer.tsx; the Date timestamp is modelled as a Nat tick. -/
structure LogEntry where
  timestamp : Nat
  level : LogLevel
  message : String
  deriving DecidableEq, Repr

/-- Scene document produced by StoryManager.toMVS. The controller treats
it as an abstract JSON value, so it is modelled as a Nat token. -/
abbrev Scene := Nat

/-- State of the EditorWithViewer controller, from the useState hooks of
EditorWithViewer.tsx lines 135-141: mvsData, error, currentCode, logs,
autoUpdateEnabled and the debounce timer ref (holding a timer id). -/
structure ControllerState where
  mvsData : Option Scene
  error : Option String
  currentCode : String
  logs : List LogEntry
  autoUpdateEnabled : Bool
  debounceTimerRef : Option Nat
  deriving DecidableEq, Repr

/-- Initial controller state on mount with the default props: no scene,
no error, empty code, empty log, autoRun true, no pending timer. -/
def initState : ControllerState :=
  { mvsData := none, error := none, currentCode := "", logs := [],
    autoUpdateEnabled := true, debounceTimerRef := none }

/-- Cap applied by addLog: newLogs.slice(-100) keeps only the last 100
entries of the appended list (EditorWithViewer.tsx line 148). -/
def capLogs (l : List LogEntry) : List LogEntry :=
  l.drop (l.length - 100)

/-- addLog from EditorWithViewer.tsx lines 143-152: append an entry with
the current timestamp and keep only the last 100 entries. -/
def addLog (level : LogLevel) (message : String) (now : Nat)
    (s : ControllerState) : ControllerState :=
  { s with logs := capLogs (s.logs ++ [{ timestamp := now, level := level, message := message }]) }

/-- Fold of a sequence of addLog calls over the controller state. -/
def addLogs (es : List LogEntry) (s : ControllerState) : ControllerState :=
  es.foldl (fun σ e => addLog e.level e.message e.timestamp σ) s

/-- Outcome of the external StoryManager collaborator during one
executeCode run: an external call throws with a message, getScene
returns null, toMVS resolves to a null result, or toMVS resolves to a
scene document. -/
inductive ExecResult where
  | throws (msg : String)
  | sceneMissing
  | nullResult
  | ok (scene : Scene)
  deriving DecidableEq, Repr

/-- Predicate for the runs in which executeCode takes its success path. -/
def ExecResult.isSuccess : ExecResult → Bool
  | .ok _ => true
  | _ => false

/-- Message reaching the catch branch of executeCode: a thrown error
carries err.message with the JS falsy fallback (an empty message falls
back to the fixed default), and the two internal throw sites of
EditorWithViewer.tsx lines 175 and 181 use their fixed messages. -/
def ExecResult.errMessage : ExecResult → Option String
  | .throws m => some (if m = "" then "Error executing code" else m)
  | .sceneMissing => some "Failed to retrieve scene"
  | .nullResult => some "Failed to generate valid MVS data"
  | .ok _ => none

/-- Trace of the calls executeCode makes on the freshly constructed
StoryManager instance: setGlobalJavascript arguments and addScene
javascript programs, in order. -/
structure ExecTrace where
  globalJsCalls : List String
  scenesAdded : List String
  deriving DecidableEq, Repr

/-- executeCode from EditorWithViewer.tsx lines 154-194, with the
behaviour of the external StoryManager supplied as an ExecResult. The
try branch first clears the error state and appends an info log entry;
it installs the hidden prelude via setGlobalJavascript iff hiddenCode is
truthy (a non-empty string), then adds the user code as the scene
program. On success it appends a success log entry carrying the elapsed
duration and stores the scene; the catch branch appends an error log
entry and stores the message, leaving mvsData untouched. Returns the
updated controller state together with the StoryManager call trace. -/
def executeCode (hiddenCode code : String) (res : ExecResult)
    (now dur : Nat) (s : ControllerState) : ControllerState × ExecTrace :=
  let s1 : ControllerState := { s with error := none }
  let s2 := addLog .info "Executing MVS code..." now s1
  let trace : ExecTrace :=
    { globalJsCalls := if hiddenCode = "" then [] else [hiddenCode],
      scenesAdded := [code] }
  match res with
  | .ok scene =>
      let s3 := addLog .success
        ("Code executed successfully (" ++ toString dur ++ "ms)") now s2
      ({ s3 with mvsData := some scene }, trace)
  | r =>
      let msg := r.errMessage.getD ""
      let s3 := addLog .error msg now s2
      ({ s3 with error := some msg }, trace)

/-- Description of one completed execution: the code run, the external
interpreter outcome, the wall-clock start tick and the duration. -/
structure ExecSpec where
  code : String
  result : ExecResult
  now : Nat
  dur : Nat
  deriving DecidableEq, Repr

/-- Controller state after a sequence of completed executeCode runs. -/
def runExecs (hiddenCode : String) (es : List ExecSpec)
    (s : ControllerState) : ControllerState :=
  es.foldl (fun σ e => (executeCode hiddenCode e.code e.result e.now e.dur σ).1) s

/-- Mutual-exclusivity predicate asserted by the spec: exactly one of the
current scene document and the current execution error is non-null. -/
abbrev ExactlyOneAuthoritative (s : ControllerState) : Prop :=
  (s.mvsData ≠ none ∧ s.error = none) ∨ (s.mvsData = none ∧ s.error ≠ none)

/-- Pending timer created by setTimeout in handleCodeChange: its id, the
delay it was armed with, and the code captured by its callback. -/
structure Timer where
  id : Nat
  delay : Nat
  code : String
  deriving DecidableEq, Repr

/-- Environment of armed browser timers belonging to one controller
instance, with a fresh-id counter. -/
structure TimerEnv where
  armed : List Timer
  nextId : Nat
  deriving DecidableEq, Repr

/-- Timer environment at mount: nothing armed. -/
def TimerEnv.initial : TimerEnv := { armed := [], nextId := 0 }

/-- clearTimeout: remove the timer with the given id from the armed set. -/
def clearTimeoutE (i : Nat) (env : TimerEnv) : TimerEnv :=
  { env with armed := env.armed.filter (fun tm => tm.id != i) }

/-- setTimeout: arm a fresh timer with the given delay and captured code,
returning its id. -/
def setTimeoutE (code : String) (delay : Nat) (env : TimerEnv) : Nat × TimerEnv :=
  (env.nextId,
   { armed := env.armed ++ [{ id := env.nextId, delay := delay, code := code }],
     nextId := env.nextId + 1 })

/-- handleCodeChange from EditorWithViewer.tsx lines 203-220: store the
received code; when automatic mode is on, clear the existing debounce
timer (when the ref holds one) and arm a new timer with the autoRunDelay
delay whose callback will execute the freshly received code. When
automatic mode is off nothing is scheduled. -/
def handleCodeChange (autoRunDelay : Nat) (code : String)
    (s : ControllerState) (env : TimerEnv) : ControllerState × TimerEnv :=
  let s := { s with currentCode := code }
  if s.autoUpdateEnabled then
    let env1 :=
      match s.debounceTimerRef with
      | some i => clearTimeoutE i env
      | none => env
    let p := setTimeoutE code autoRunDelay env1
    ({ s with debounceTimerRef := some p.1 }, p.2)
  else
    (s, env)

/-- setAutoUpdateEnabled as wired to the checkbox onChange handler of
EditorWithViewer.tsx lines 293-298: a bare state update of the
autoUpdateEnabled flag, with no clearTimeout. -/
def setAutoUpdateEnabled (b : Bool) (s : ControllerState) : ControllerState :=
  { s with autoUpdateEnabled := b }

/-- Firing of every armed timer once its delay has elapsed with no
further event: returns the codes executed by the timer callbacks, in
arming order, and the drained environment. -/
def fireDue (env : TimerEnv) : List String × TimerEnv :=
  (env.armed.map Timer.code, { env with armed := [] })

/-- Fold of a burst of change events through handleCodeChange. Claims
about bursts assume no armed timer fires inside the burst, which models
the events arriving within less than the debounce delay of one another. -/
def processBurst (autoRunDelay : Nat) (cs : List String)
    (s : ControllerState) (env : TimerEnv) : ControllerState × TimerEnv :=
  cs.foldl (fun p c => handleCodeChange autoRunDelay c p.1 p.2) (s, env)

/-- Well-formedness of the timer state: the debounce timer ref tracks
every armed timer of this instance, and at most one timer is armed. Both
hold at mount and are preserved by handleCodeChange. -/
def WF (s : ControllerState) (env : TimerEnv) : Prop :=
  (∀ tm ∈ env.armed, s.debounceTimerRef = some tm.id) ∧ env.armed.length ≤ 1

/-- Observable state of one MolstarViewer handle: the isLoading flag, the
serialized scenes handed to viewer.loadMvsData, and the lifecycle
callbacks that fired. -/
structure ViewerState where
  isLoading : Bool
  engineCalls : List String
  loadedCallbacks : Nat
  errorCallbacks : List String
  deriving DecidableEq, Repr

/-- Entry of loadMVSDataHelper (MolstarViewer source, lines 171-179): a
request arriving while isLoading is dropped with no state change at all;
otherwise the flag is set and the serialized scene is handed to
viewer.loadMvsData. -/
def loadRequest (data : String) (v : ViewerState) : ViewerState :=
  if v.isLoading then v
  else { v with isLoading := true, engineCalls := v.engineCalls ++ [data] }

/-- Resolution of the awaited viewer.loadMvsData call (MolstarViewer
source, lines 181-190): onMVSLoaded on success, onError on failure, and
the finally block clears isLoading in both cases. -/
def loadResolve (outcome : Except String Unit) (v : ViewerState) : ViewerState :=
  match outcome with
  | .ok _ => { v with isLoading := false, loadedCallbacks := v.loadedCallbacks + 1 }
  | .error e => { v with isLoading := false, errorCallbacks := v.errorCallbacks ++ [e] }

/-- Fresh viewer handle state: no load in flight, no engine calls, no
callbacks fired. -/
def freshViewer : ViewerState :=
  { isLoading := false, engineCalls := [], loadedCallbacks := 0, errorCallbacks := [] }

/-- Result of one MolstarViewer mount attempt: the onError messages
delivered, whether the engine instance was created, whether the polling
interval was cleared, and the times (ms after mount) at which the
window.molstar.Viewer global was sampled. -/
structure InitResult where
  onErrorCalls : List String
  viewerCreated : Bool
  intervalCleared : Bool
  polled : List Nat
  deriving DecidableEq, Repr

/-- Polling loop of initViewer (MolstarViewer source, lines 202-215): the
interval callback samples the availability of window.molstar.Viewer
every 100 ms; the 10 s timeout leaves room for 100 samples, after which
the interval is cleared and the promise rejects with the fixed message.
Returns the sample times together with the resolution. -/
def pollLoop : Nat → Nat → (Nat → Bool) → List Nat × Except String Nat
  | 0, _, _ => ([], .error "Molstar failed to load from CDN")
  | n + 1, t, avail =>
      let tN := t + 100
      if avail tN then ([tN], .ok tN)
      else
        let p := pollLoop n tN avail
        (tN :: p.1, p.2)

/-- Waiting phase of initViewer: when window.molstar.Viewer is already
present at mount no interval is created; otherwise the 100 ms polling
loop runs under the 10 s timeout. -/
def pollWait (avail : Nat → Bool) : List Nat × Except String Nat :=
  if avail 0 then ([], .ok 0) else pollLoop 100 0 avail

/-- initViewer from the MolstarViewer source, lines 197-244, with the
availability of the CDN global over time and the outcome of
Viewer.create supplied as parameters. A timeout rejection is caught by
the surrounding try and delivered to onError exactly once; the function
makes no retry. The interval is cleared both on resolve and on timeout. -/
def initViewer (avail : Nat → Bool) (createResult : Except String Unit) : InitResult :=
  let w := pollWait avail
  match w.2 with
  | .error e =>
      { onErrorCalls := [e], viewerCreated := false,
        intervalCleared := true, polled := w.1 }
  | .ok _ =>
      match createResult with
      | .error e =>
          { onErrorCalls := [e], viewerCreated := false,
            intervalCleared := true, polled := w.1 }
      | .ok _ =>
          { onErrorCalls := [], viewerCreated := true,
            intervalCleared := true, polled := w.1 }

/-- Observable state of the mounted Monaco editor: its current content,
the onCodeChange events emitted through onDidChangeModelContent, and how
many times setValue was invoked on it. -/
structure EditorModel where
  value : String
  changeEvents : List String
  setValueCalls : Nat
  deriving DecidableEq, Repr

/-- Effect of MolViewEditor.tsx lines 211-218, run when the initialCode
prop changes: compare the prop with getValue and call setValue only when
they differ; a setValue triggers onDidChangeModelContent, which reports
the new full text through onCodeChange. -/
def updateFromProp (t : String) (ed : EditorModel) : EditorModel :=
  if ed.value = t then ed
  else { value := t, changeEvents := ed.changeEvents ++ [t],
         setValueCalls := ed.setValueCalls + 1 }

/-- Keydown event as observed by the document-level handler of
MolViewEditor.tsx: modifier flags, the key string, and whether the event
target lies within this editor instance mount container. -/
structure KeyEvent where
  metaKey : Bool
  ctrlKey : Bool
  key : String
  targetInContainer : Bool
  deriving DecidableEq, Repr

/-- Observable outcome of one keydown dispatch: whether preventDefault
and stopPropagation were called, and the text handed to onSave when the
save callback fired. -/
structure KeyOutcome where
  prevented : Bool
  stopped : Bool
  saved : Option String
  deriving DecidableEq, Repr

/-- handleKeyDown from MolViewEditor.tsx lines 98-112: on a Ctrl/Cmd+S
whose target lies inside this instance container, preventDefault and
stopPropagation are called and, when an onSave callback was supplied and
the editor is mounted, onSave receives the full current text; any other
event falls through untouched. -/
def handleKeyDown (e : KeyEvent) (editorValue : Option String)
    (onSavePresent : Bool) : KeyOutcome :=
  if (e.metaKey || e.ctrlKey) && e.key == "s" then
    if e.targetInContainer then
      { prevented := true, stopped := true,
        saved := if onSavePresent then editorValue else none }
    else { prevented := false, stopped := false, saved := none }
  else { prevented := false, stopped := false, saved := none }

/-- Concrete two-run trace: a successful execution followed by a failing
one, as fed to the EditorWithViewer controller. -/
def twoRuns : List ExecSpec :=
  [{ code := "a", result := ExecResult.ok 1, now := 0, dur := 5 },
   { code := "b", result := ExecResult.throws "boom", now := 10, dur := 3 }]

/-! ### Helper lemmas about the log cap -/

theorem capLogs_length_le (l : List LogEntry) : (capLogs l).length ≤ 100 := by
  unfold capLogs
  rw [List.length_drop]
  omega

theorem capLogs_capLogs_append (l m : List LogEntry) :
    capLogs (capLogs l ++ m) = capLogs (l ++ m) := by
  unfold capLogs
  by_cases h : l.length ≤ 100
  · have h0 : l.length - 100 = 0 := by omega
    rw [h0, List.drop_zero]
  · have hlen : (List.drop (l.length - 100) l).length = 100 := by
      rw [List.length_drop]; omega
    rw [List.length_append, List.length_append, hlen]
    have h1 : 100 + m.length - 100 = m.length := by omega
    have h2 : l.length + m.length - 100 = (l.length - 100) + m.length := by omega
    rw [h1, h2]
    have h3 : List.drop ((l.length - 100) + m.length) (l ++ m)
        = List.drop m.length (List.drop (l.length - 100) (l ++ m)) := by
      rw [List.drop_drop]
    rw [h3, List.drop_append_of_le_length (show l.length - 100 ≤ l.length by omega)]

theorem addLogs_logs (es : List LogEntry) (s : ControllerState)
    (h : s.logs.length ≤ 100) :
    (addLogs es s).logs = capLogs (s.logs ++ es) := by
  induction es generalizing s with
  | nil =>
      have h0 : s.logs.length - 100 = 0 := by omega
      show s.logs = capLogs (s.logs ++ [])
      rw [List.append_nil]
      unfold capLogs
      rw [h0, List.drop_zero]
  | cons e tl ih =>
      have hstep : (addLog e.level e.message e.timestamp s).logs
          = capLogs (s.logs ++ [e]) := rfl
      have h' : (addLog e.level e.message e.timestamp s).logs.length ≤ 100 := by
        rw [hstep]; exact capLogs_length_le _
      have hc : addLogs (e :: tl) s = addLogs tl (addLog e.level e.message e.timestamp s) := rfl
      rw [hc, ih _ h', hstep, capLogs_capLogs_append, List.append_assoc,
        List.singleton_append]

theorem capLogs_concat (l : List LogEntry) (e : LogEntry) :
    ∃ pre, capLogs (l ++ [e]) = pre ++ [e] := by
  refine ⟨List.drop ((l ++ [e]).length - 100) l, ?_⟩
  unfold capLogs
  exact List.drop_append_of_le_length (by simp)

/-! ### Helper lemmas about executeCode -/

theorem executeCode_error_eq (hc c : String) (r : ExecResult) (t d : Nat)
    (σ : ControllerState) :
    (executeCode hc c r t d σ).1.error = r.errMessage := by
  cases r <;> rfl

theorem executeCode_mvs_ok (hc c : String) (sc : Scene) (t d : Nat)
    (σ : ControllerState) :
    (executeCode hc c (ExecResult.ok sc) t d σ).1.mvsData = some sc := rfl

theorem executeCode_mvs_fail (hc c : String) (r : ExecResult) (t d : Nat)
    (σ : ControllerState) (hfail : r.isSuccess = false) :
    (executeCode hc c r t d σ).1.mvsData = σ.mvsData := by
  cases r with
  | ok sc => simp [ExecResult.isSuccess] at hfail
  | throws m => rfl
  | sceneMissing => rfl
  | nullResult => rfl

theorem errMessage_eq_none_iff (r : ExecResult) :
    r.errMessage = none ↔ r.isSuccess = true := by
  cases r <;> simp [ExecResult.errMessage, ExecResult.isSuccess]

theorem runExecs_append (hc : String) (l1 l2 : List ExecSpec) (σ : ControllerState) :
    runExecs hc (l1 ++ l2) σ = runExecs hc l2 (runExecs hc l1 σ) := by
  simp [runExecs, List.foldl_append]

theorem runExecs_error_last (hc : String) (es : List ExecSpec) (e : ExecSpec)
    (hlast : es.getLast? = some e) (σ : ControllerState) :
    (runExecs hc es σ).error = e.result.errMessage := by
  obtain ⟨ys, rfl⟩ := List.getLast?_eq_some_iff.mp hlast
  rw [runExecs_append]
  exact executeCode_error_eq hc e.code e.result e.now e.dur _

theorem executeCode_mvs_iff (hc : String) (x : ExecSpec) (σ : ControllerState) :
    ((executeCode hc x.code x.result x.now x.dur σ).1.mvsData ≠ none)
      ↔ (x.result.isSuccess = true ∨ σ.mvsData ≠ none) := by
  cases hr : x.result with
  | ok sc =>
      rw [executeCode_mvs_ok]
      simp [ExecResult.isSuccess]
  | throws m =>
      rw [executeCode_mvs_fail hc x.code (ExecResult.throws m) x.now x.dur σ rfl]
      simp [ExecResult.isSuccess]
  | sceneMissing =>
      rw [executeCode_mvs_fail hc x.code ExecResult.sceneMissing x.now x.dur σ rfl]
      simp [ExecResult.isSuccess]
  | nullResult =>
      rw [executeCode_mvs_fail hc x.code ExecResult.nullResult x.now x.dur σ rfl]
      simp [ExecResult.isSuccess]

theorem runExecs_mvs_ne (hc : String) (es : List ExecSpec) :
    ∀ σ : ControllerState,
      ((runExecs hc es σ).mvsData ≠ none
        ↔ (σ.mvsData ≠ none ∨ ∃ x ∈ es, x.result.isSuccess = true)) := by
  induction es with
  | nil => intro σ; simp [runExecs]
  | cons x tl ih =>
      intro σ
      have hcons : runExecs hc (x :: tl) σ
          = runExecs hc tl ((executeCode hc x.code x.result x.now x.dur σ).1) := rfl
      rw [hcons, ih, executeCode_mvs_iff]
      constructor
      · rintro ((hx | hσ) | ⟨y, hy, hsy⟩)
        · exact Or.inr ⟨x, List.mem_cons_self x tl, hx⟩
        · exact Or.inl hσ
        · exact Or.inr ⟨y, List.mem_cons_of_mem x hy, hsy⟩
      · rintro (hσ | ⟨y, hy, hsy⟩)
        · exact Or.inl (Or.inr hσ)
        · rcases List.mem_cons.mp hy with h | h
          · subst h; exact Or.inl (Or.inl hsy)
          · exact Or.inr ⟨y, h, hsy⟩

/-! ### Claim C1: mutual exclusivity of result and error -/

/-- Claim C1, counterexample: the spec asserts that after any completed
execution exactly one of the current scene document and the current
execution error is non-null. On the code this fails: after a successful
execution followed by a failing one, the catch branch of executeCode
sets the error but leaves the previously stored mvsData in place, so
both are non-null. -/
theorem mutual_exclusivity_counterexample :
    (runExecs "" twoRuns initState).mvsData = some 1 ∧
    (runExecs "" twoRuns initState).error = some "boom" ∧
    ¬ ExactlyOneAuthoritative (runExecs "" twoRuns initState) := by
  refine ⟨rfl, rfl, ?_⟩
  rintro (⟨-, h⟩ | ⟨h, -⟩)
  · exact Option.noConfusion ((rfl : (runExecs "" twoRuns initState).error = some "boom") ▸ h)
  · exact Option.noConfusion ((rfl : (runExecs "" twoRuns initState).mvsData = some 1) ▸ h)

/-- Claim C1, amended: after any non-empty sequence of completed
executions, at least one of the current scene document and the current
execution error is non-null (never neither); the error is non-null
exactly when the latest execution failed, and the scene document is
non-null exactly when some execution in the sequence succeeded — so both
are non-null when a failure follows an earlier success. -/
theorem mutual_exclusivity_amended (hc : String) (es : List ExecSpec) (e : ExecSpec)
    (hlast : es.getLast? = some e) :
    ((runExecs hc es initState).mvsData ≠ none ∨ (runExecs hc es initState).error ≠ none) ∧
    ((runExecs hc es initState).error = none ↔ e.result.isSuccess = true) ∧
    ((runExecs hc es initState).mvsData ≠ none ↔ ∃ x ∈ es, x.result.isSuccess = true) := by
  have herr := runExecs_error_last hc es e hlast initState
  have hmvs' : (runExecs hc es initState).mvsData ≠ none
      ↔ ∃ x ∈ es, x.result.isSuccess = true := by
    rw [runExecs_mvs_ne hc es initState]
    simp [initState]
  refine ⟨?_, ?_, hmvs'⟩
  · by_cases hsucc : e.result.isSuccess = true
    · exact Or.inl (hmvs'.mpr ⟨e, List.mem_of_getLast?_eq_some hlast, hsucc⟩)
    · refine Or.inr ?_
      rw [herr]
      intro hnone
      exact hsucc ((errMessage_eq_none_iff e.result).mp hnone)
  · rw [herr]
    exact errMessage_eq_none_iff e.result

/-- Claim C1 witness: the amended theorem instantiated on the concrete
two-run trace. -/
theorem mutual_exclusivity_amended_witness :
    twoRuns.getLast? = some { code := "b", result := ExecResult.throws "boom", now := 10, dur := 3 } ∧
    ((runExecs "" twoRuns initState).mvsData ≠ none ∨ (runExecs "" twoRuns initState).error ≠ none) :=
  ⟨rfl, (mutual_exclusivity_amended "" twoRuns
      { code := "b", result := ExecResult.throws "boom", now := 10, dur := 3 } rfl).1⟩

/-! ### Claim C4: log cap invariant -/

/-- Claim C4: for every sequence of addLog calls from the initial
controller state, the logs list length never exceeds 100, and after
appending more than 100 entries the list holds exactly the last 100
appended entries in their original append order. -/
theorem log_cap (es : List LogEntry) :
    (addLogs es initState).logs.length ≤ 100 ∧
    (100 < es.length → (addLogs es initState).logs = (es.reverse.take 100).reverse) := by
  have hbase : initState.logs.length ≤ 100 := by simp [initState]
  have hlogs : (addLogs es initState).logs = capLogs es := by
    rw [addLogs_logs es initState hbase]
    show capLogs ([] ++ es) = capLogs es
    rw [List.nil_append]
  constructor
  · rw [hlogs]; exact capLogs_length_le _
  · intro hN
    rw [hlogs]
    rw [List.reverse_take]
    unfold capLogs
    simp

/-- Claim C4 witness: the cap statement instantiated on 101 appended
entries. -/
theorem log_cap_witness :
    100 < (List.replicate 101 ({ timestamp := 0, level := LogLevel.info, message := "m" } : LogEntry)).length ∧
    (addLogs (List.replicate 101 { timestamp := 0, level := LogLevel.info, message := "m" }) initState).logs
      = ((List.replicate 101 ({ timestamp := 0, level := LogLevel.info, message := "m" } : LogEntry)).reverse.take 100).reverse :=
  ⟨by simp, (log_cap _).2 (by simp)⟩

/-! ### Claim C5: in-flight load guard -/

/-- Claim C5: when a second load request reaches loadMVSDataHelper while
a prior load is still in flight, exactly one call reaches the engine
(viewer.loadMvsData sees only the first serialized scene); the second
request is dropped silently — the state is completely unchanged, so
nothing is queued, no error is surfaced, and loads are never concurrent
for the same handle. -/
theorem load_guard (v : ViewerState) (d1 d2 : String) (h : v.isLoading = false) :
    (loadRequest d1 v).engineCalls = v.engineCalls ++ [d1] ∧
    (loadRequest d1 v).isLoading = true ∧
    loadRequest d2 (loadRequest d1 v) = loadRequest d1 v ∧
    (loadRequest d2 (loadRequest d1 v)).engineCalls = v.engineCalls ++ [d1] ∧
    (loadRequest d2 (loadRequest d1 v)).errorCallbacks = v.errorCallbacks := by
  simp [loadRequest, h]

/-- Claim C5 witness: the load guard instantiated on a fresh handle and
two concrete requests. -/
theorem load_guard_witness :
    freshViewer.isLoading = false ∧
    loadRequest "s2" (loadRequest "s1" freshViewer) = loadRequest "s1" freshViewer :=
  ⟨rfl, (load_guard freshViewer "s1" "s2" rfl).2.2.1⟩

/-! ### Claim C7: execution-failure isolation -/

set_option maxRecDepth 4096 in
/-- Claim C7: whenever the external StoryManager throws or yields an
empty or invalid result, executeCode catches the failure and converts it
into an execution error carrying the underlying message: the error state
holds the message (exactly the thrown message whenever it is non-empty),
an error-level log entry with that message is appended as the last log
entry, and the previously produced scene document is left unchanged.
The function is total, so the controller completes without an uncaught
exception. -/
theorem execution_failure_isolation (hiddenCode code : String) (r : ExecResult)
    (now dur : Nat) (s : ControllerState) (hfail : r.isSuccess = false) :
    (executeCode hiddenCode code r now dur s).1.mvsData = s.mvsData ∧
    (executeCode hiddenCode code r now dur s).1.error = r.errMessage ∧
    r.errMessage ≠ none ∧
    (∀ m, r = ExecResult.throws m → m ≠ "" →
      (executeCode hiddenCode code r now dur s).1.error = some m) ∧
    (∃ pre, (executeCode hiddenCode code r now dur s).1.logs
      = pre ++ [{ timestamp := now, level := LogLevel.error,
                  message := r.errMessage.getD "" }]) := by
  cases r with
  | ok sc => simp [ExecResult.isSuccess] at hfail
  | throws m =>
      refine ⟨rfl, rfl, ?_, ?_, ?_⟩
      · simp [ExecResult.errMessage]
      · intro m' hm hne
        cases hm
        rw [executeCode_error_eq]
        show some (if m = "" then "Error executing code" else m) = some m
        rw [if_neg hne]
      · exact capLogs_concat _ _
  | sceneMissing =>
      refine ⟨rfl, rfl, ?_, ?_, ?_⟩
      · simp [ExecResult.errMessage]
      · intro m hm hne
        cases hm
      · exact capLogs_concat _ _
  | nullResult =>
      refine ⟨rfl, rfl, ?_, ?_, ?_⟩
      · simp [ExecResult.errMessage]
      · intro m hm hne
        cases hm
      · exact capLogs_concat _ _

/-- Claim C7 witness: the failure-isolation theorem instantiated on a
throwing interpreter with message boom. -/
theorem execution_failure_isolation_witness :
    (ExecResult.throws "boom").isSuccess = false ∧
    (executeCode "" "c" (ExecResult.throws "boom") 7 3 initState).1.error
      = (ExecResult.throws "boom").errMessage :=
  ⟨rfl, (execution_failure_isolation "" "c" (ExecResult.throws "boom") 7 3 initState rfl).2.1⟩

/-! ### Helper lemmas about the debounce timer machinery -/

theorem WF_init : WF initState TimerEnv.initial := by
  constructor
  · intro tm htm
    simp [TimerEnv.initial] at htm
  · simp [TimerEnv.initial]

theorem handleCodeChange_auto_on (delay : Nat) (c : String)
    (s : ControllerState) (env : TimerEnv)
    (hauto : s.autoUpdateEnabled = true)
    (hwf : ∀ tm ∈ env.armed, s.debounceTimerRef = some tm.id) :
    (handleCodeChange delay c s env).2.armed
        = [{ id := env.nextId, delay := delay, code := c }] ∧
    (handleCodeChange delay c s env).1.debounceTimerRef = some env.nextId ∧
    (handleCodeChange delay c s env).1.autoUpdateEnabled = true := by
  cases href : s.debounceTimerRef with
  | none =>
      have hnil : env.armed = [] := by
        cases henv : env.armed with
        | nil => rfl
        | cons tm tl =>
            have := hwf tm (by rw [henv]; exact List.mem_cons_self tm tl)
            rw [href] at this
            cases this
      refine ⟨?_, ?_, ?_⟩ <;>
        simp [handleCodeChange, setTimeoutE, hauto, href, hnil]
  | some i =>
      have hfilter : env.armed.filter (fun tm => tm.id != i) = [] := by
        rw [List.filter_eq_nil_iff]
        intro tm htm
        have := hwf tm htm
        rw [href] at this
        injection this with hh
        simp [show tm.id = i from hh.symm]
      refine ⟨?_, ?_, ?_⟩ <;>
        simp [handleCodeChange, setTimeoutE, clearTimeoutE, hauto, href, hfilter]

theorem handleCodeChange_auto_eq (delay : Nat) (c : String)
    (s : ControllerState) (env : TimerEnv) :
    (handleCodeChange delay c s env).1.autoUpdateEnabled = s.autoUpdateEnabled := by
  by_cases h : s.autoUpdateEnabled = true <;> simp [handleCodeChange, h]

theorem handleCodeChange_auto_off (delay : Nat) (c : String)
    (s : ControllerState) (env : TimerEnv) (hoff : s.autoUpdateEnabled = false) :
    (handleCodeChange delay c s env).1 = { s with currentCode := c } ∧
    (handleCodeChange delay c s env).2 = env := by
  constructor <;> simp [handleCodeChange, hoff]

theorem WF_handleCodeChange (delay : Nat) (c : String)
    (s : ControllerState) (env : TimerEnv) (hwf : WF s env) :
    WF (handleCodeChange delay c s env).1 (handleCodeChange delay c s env).2 := by
  by_cases hauto : s.autoUpdateEnabled = true
  · obtain ⟨ha, hr, -⟩ := handleCodeChange_auto_on delay c s env hauto hwf.1
    constructor
    · intro tm htm
      rw [ha] at htm
      have ht := List.mem_singleton.mp htm
      subst ht
      rw [hr]
    · rw [ha]
      simp
  · have hoff : s.autoUpdateEnabled = false := by
      cases hb : s.autoUpdateEnabled
      · rfl
      · exact absurd hb hauto
    obtain ⟨h1, h2⟩ := handleCodeChange_auto_off delay c s env hoff
    constructor
    · intro tm htm
      rw [h2] at htm
      rw [h1]
      exact hwf.1 tm htm
    · rw [h2]
      exact hwf.2

theorem processBurst_cons (delay : Nat) (c : String) (cs : List String)
    (s : ControllerState) (env : TimerEnv) :
    processBurst delay (c :: cs) s env
      = processBurst delay cs (handleCodeChange delay c s env).1
          (handleCodeChange delay c s env).2 := rfl

theorem WF_processBurst (delay : Nat) (cs : List String)
    (s : ControllerState) (env : TimerEnv) (hwf : WF s env) :
    WF (processBurst delay cs s env).1 (processBurst delay cs s env).2 := by
  induction cs generalizing s env with
  | nil => exact hwf
  | cons c tl ih =>
      rw [processBurst_cons]
      exact ih _ _ (WF_handleCodeChange delay c s env hwf)

theorem processBurst_armed_last (delay : Nat) (cs : List String) (c : String)
    (hlast : cs.getLast? = some c) :
    ∀ (s : ControllerState) (env : TimerEnv), WF s env →
      s.autoUpdateEnabled = true →
      (processBurst delay cs s env).2.armed.map Timer.code = [c] := by
  induction cs with
  | nil => simp at hlast
  | cons x tl ih =>
      intro s env hwf hauto
      cases tl with
      | nil =>
          injection hlast with hx
          subst hx
          rw [processBurst_cons]
          obtain ⟨ha, -, -⟩ := handleCodeChange_auto_on delay x s env hauto hwf.1
          show (handleCodeChange delay x s env).2.armed.map Timer.code = [x]
          rw [ha]
          rfl
      | cons y tl2 =>
          rw [List.getLast?_cons_cons] at hlast
          rw [processBurst_cons]
          exact ih hlast _ _ (WF_handleCodeChange delay x s env hwf)
            (by rw [handleCodeChange_auto_eq]; exact hauto)

/-! ### Claim C2: toggling automatic mode off and the pending timer -/

/-- Claim C2, counterexample: the spec asserts that unchecking the
auto-update checkbox cancels any pending debounce timer so that no
execution occurs from it. On the code this fails: the checkbox onChange
handler only calls the state setter, so a timer armed by a prior change
notification stays armed after setAutoUpdateEnabled false and its
callback still fires, executing the captured code. -/
theorem auto_off_timer_cancel_counterexample :
    (setAutoUpdateEnabled false
        (handleCodeChange 500 "x" initState TimerEnv.initial).1).autoUpdateEnabled = false ∧
    (fireDue (handleCodeChange 500 "x" initState TimerEnv.initial).2).1 = ["x"] ∧
    ¬ (fireDue (handleCodeChange 500 "x" initState TimerEnv.initial).2).1 = [] := by
  refine ⟨rfl, rfl, ?_⟩
  intro h
  exact List.noConfusion
    ((rfl : (fireDue (handleCodeChange 500 "x" initState TimerEnv.initial).2).1 = ["x"]) ▸ h)

set_option maxRecDepth 16384 in
/-- Claim C2, amended: toggling automatic mode off does not cancel a
pending debounce timer — the timer armed before the toggle still fires
and runs one execution with its captured text. What does hold is that
change notifications delivered after the toggle schedule nothing, and an
already in-flight execution is unaffected by the toggle: executeCode
commutes with setAutoUpdateEnabled false, so it still updates state
identically when it resolves. -/
theorem auto_off_amended (s : ControllerState) (env : TimerEnv)
    (i delay : Nat) (c : String)
    (harm : env.armed = [{ id := i, delay := delay, code := c }]) :
    (fireDue env).1 = [c] ∧
    (fireDue env).2.armed = [] ∧
    (∀ (hc code : String) (r : ExecResult) (t d : Nat) (σ : ControllerState),
      (executeCode hc code r t d (setAutoUpdateEnabled false σ)).1
        = setAutoUpdateEnabled false (executeCode hc code r t d σ).1) ∧
    (∀ code : String,
      (handleCodeChange delay code (setAutoUpdateEnabled false s) (fireDue env).2).2.armed
        = []) := by
  refine ⟨?_, rfl, ?_, ?_⟩
  · show env.armed.map Timer.code = [c]
    rw [harm]
    rfl
  · intro hc code r t d σ
    cases σ
    cases r <;> rfl
  · intro code
    rfl

/-- Claim C2 witness: the amended theorem instantiated on a concrete
armed timer. -/
theorem auto_off_amended_witness :
    ({ armed := [{ id := 0, delay := 500, code := "x" }], nextId := 1 } : TimerEnv).armed
      = [{ id := 0, delay := 500, code := "x" }] ∧
    (fireDue { armed := [{ id := 0, delay := 500, code := "x" }], nextId := 1 }).1 = ["x"] :=
  ⟨rfl, (auto_off_amended initState
      { armed := [{ id := 0, delay := 500, code := "x" }], nextId := 1 } 0 500 "x" rfl).1⟩

/-! ### Claim C3: debounce collapsing -/

/-- Claim C3: for every burst of change notifications delivered to
handleCodeChange while automatic mode is on, with each notification
arriving less than the debounce delay after the previous one (modelled
by no timer firing inside the burst), firing the armed timers after the
burst runs exactly one execution, and it uses the text of the last
notification; moreover at most one debounce timer is pending for the
controller instance after every prefix of the burst. -/
theorem debounce_burst_collapses (delay : Nat) (cs : List String) (c : String)
    (hlast : cs.getLast? = some c) (s : ControllerState) (env : TimerEnv)
    (hwf : WF s env) (hauto : s.autoUpdateEnabled = true) :
    (fireDue (processBurst delay cs s env).2).1 = [c] ∧
    (∀ n : Nat, (processBurst delay (cs.take n) s env).2.armed.length ≤ 1) := by
  constructor
  · exact processBurst_armed_last delay cs c hlast s env hwf hauto
  · intro n
    exact (WF_processBurst delay (cs.take n) s env hwf).2

/-- Claim C3 witness: the debounce-collapsing theorem instantiated on a
concrete two-notification burst. -/
theorem debounce_burst_collapses_witness :
    (["a", "b"] : List String).getLast? = some "b" ∧
    WF initState TimerEnv.initial ∧
    initState.autoUpdateEnabled = true ∧
    (fireDue (processBurst 500 ["a", "b"] initState TimerEnv.initial).2).1 = ["b"] :=
  ⟨rfl, WF_init, rfl,
    (debounce_burst_collapses 500 ["a", "b"] "b" rfl initState TimerEnv.initial
      WF_init rfl).1⟩

/-! ### Claim C6: dependency timeout -/

theorem pollLoop_never (avail : Nat → Bool) (h : ∀ t, avail t = false) :
    ∀ (n t : Nat), pollLoop n t avail
      = ((List.range n).map (fun k => t + (k + 1) * 100),
         Except.error "Molstar failed to load from CDN") := by
  intro n
  induction n with
  | zero => intro t; rfl
  | succ n ih =>
      intro t
      have hf : avail (t + 100) = false := h _
      have hstep : pollLoop (n + 1) t avail
          = ((t + 100) :: (pollLoop n (t + 100) avail).1,
             (pollLoop n (t + 100) avail).2) := by
        show (if avail (t + 100) = true then ([t + 100], Except.ok (t + 100))
          else ((t + 100) :: (pollLoop n (t + 100) avail).1,
                (pollLoop n (t + 100) avail).2))
          = ((t + 100) :: (pollLoop n (t + 100) avail).1,
             (pollLoop n (t + 100) avail).2)
        rw [hf]
        simp
      rw [hstep, ih (t + 100)]
      dsimp only
      simp only [Prod.mk.injEq, and_true]
      rw [List.range_succ_eq_map, List.map_cons, List.map_map]
      simp only [List.cons.injEq]
      constructor
      · ring_nf
      · apply List.map_congr_left
        intro k _
        simp only [Function.comp_apply]
        omega

/-- Claim C6: when the external rendering-engine constructor never
becomes available, the mount samples the global at the fixed 100 ms
interval (at 100, 200, ..., 10000 ms), then fails: the fixed 10 s
timeout rejects with the dependency-unavailable message, the rejection
is delivered to onError exactly once, the polling interval is cleared,
no engine instance is created and no retry is made. -/
theorem dependency_timeout (avail : Nat → Bool) (createResult : Except String Unit)
    (h : ∀ t, avail t = false) :
    initViewer avail createResult =
      { onErrorCalls := ["Molstar failed to load from CDN"],
        viewerCreated := false, intervalCleared := true,
        polled := (List.range 100).map (fun k => (k + 1) * 100) } ∧
    (initViewer avail createResult).onErrorCalls.length = 1 := by
  have h0 : avail 0 = false := h 0
  have hw : pollWait avail
      = ((List.range 100).map (fun k => (k + 1) * 100),
         Except.error "Molstar failed to load from CDN") := by
    rw [pollWait, if_neg (by simp [h0]), pollLoop_never avail h 100 0]
    simp
  have heq : initViewer avail createResult =
      { onErrorCalls := ["Molstar failed to load from CDN"],
        viewerCreated := false, intervalCleared := true,
        polled := (List.range 100).map (fun k => (k + 1) * 100) } := by
    rw [initViewer.eq_def, hw]
  exact ⟨heq, by rw [heq]; rfl⟩

/-- Claim C6 witness: the timeout theorem instantiated on a global that
is never available. -/
theorem dependency_timeout_witness :
    (∀ t, (fun _ : Nat => false) t = false) ∧
    (initViewer (fun _ => false) (Except.ok ())).onErrorCalls.length = 1 :=
  ⟨fun _ => rfl, (dependency_timeout (fun _ => false) (Except.ok ()) (fun _ => rfl)).2⟩

/-! ### Claim C8: setText idempotence -/

/-- Claim C8: replacing the editor text through the initialCode-update
path with text equal to the current content is a no-op — setValue is not
invoked, no change notification is emitted and the editor state is
untouched — while an update with different text invokes setValue exactly
once and sets the new content; so setValue fires iff the new text
differs from the current value. -/
theorem setText_idempotent (t : String) (ed : EditorModel) :
    ((updateFromProp t ed).setValueCalls = ed.setValueCalls + 1 ↔ ed.value ≠ t) ∧
    ((updateFromProp t ed).changeEvents = ed.changeEvents ↔ ed.value = t) ∧
    (ed.value = t → updateFromProp t ed = ed) ∧
    (ed.value ≠ t → (updateFromProp t ed).value = t) := by
  by_cases h : ed.value = t
  · simp [updateFromProp, h]
  · simp [updateFromProp, h]

/-- Claim C8 witness: the idempotence direction instantiated on an
editor whose content already equals the incoming text. -/
theorem setText_idempotent_witness :
    (({ value := "a", changeEvents := [], setValueCalls := 0 } : EditorModel).value = "a") ∧
    updateFromProp "a" { value := "a", changeEvents := [], setValueCalls := 0 }
      = { value := "a", changeEvents := [], setValueCalls := 0 } :=
  ⟨rfl, (setText_idempotent "a" { value := "a", changeEvents := [], setValueCalls := 0 }).2.2.1 rfl⟩

/-! ### Claim C9: commit-gesture scoping -/

/-- Claim C9: for every Ctrl/Cmd+S keydown observed by the document-level
handler of a mounted editor with a supplied onSave callback, the save
callback fires with the full current text and the native save behavior
is suppressed if and only if the event target lies within this editor
instance mount container; an event whose target is outside triggers
neither. -/
theorem save_gesture_scoped (e : KeyEvent) (txt : String)
    (hk : (e.metaKey || e.ctrlKey) = true) (hs : e.key = "s") :
    handleKeyDown e (some txt) true
      = (if e.targetInContainer then
          { prevented := true, stopped := true, saved := some txt }
        else { prevented := false, stopped := false, saved := none }) ∧
    ((handleKeyDown e (some txt) true).saved = some txt ↔ e.targetInContainer = true) ∧
    ((handleKeyDown e (some txt) true).prevented = true ↔ e.targetInContainer = true) := by
  cases hc : e.targetInContainer <;> simp [handleKeyDown, hk, hs, hc]

/-- Claim C9 witness: the scoping theorem instantiated on a concrete
Cmd+S event inside the container. -/
theorem save_gesture_scoped_witness :
    (({ metaKey := true, ctrlKey := false, key := "s", targetInContainer := true } : KeyEvent).metaKey
      || ({ metaKey := true, ctrlKey := false, key := "s", targetInContainer := true } : KeyEvent).ctrlKey) = true ∧
    ((handleKeyDown { metaKey := true, ctrlKey := false, key := "s", targetInContainer := true }
        (some "code") true).saved = some "code"
      ↔ ({ metaKey := true, ctrlKey := false, key := "s", targetInContainer := true } : KeyEvent).targetInContainer = true) :=
  ⟨rfl, (save_gesture_scoped
      { metaKey := true, ctrlKey := false, key := "s", targetInContainer := true } "code" rfl rfl).2.1⟩

/-! ### Claim C10: hidden-prelude edge case -/

/-- Claim C10: in every executeCode run the hidden prelude reaches
setGlobalJavascript if and only if the hiddenCode prop is a non-empty
string (the JS truthiness test on the string), and the user code is
always added as the single scene program; with the default empty
hiddenCode, setGlobalJavascript is never called. -/
theorem hidden_prelude_iff (hiddenCode code : String) (r : ExecResult)
    (now dur : Nat) (s : ControllerState) :
    (((executeCode hiddenCode code r now dur s).2.globalJsCalls ≠ []) ↔ hiddenCode ≠ "") ∧
    (executeCode hiddenCode code r now dur s).2.globalJsCalls
      = (if hiddenCode = "" then [] else [hiddenCode]) ∧
    (executeCode hiddenCode code r now dur s).2.scenesAdded = [code] := by
  cases r <;> by_cases h : hiddenCode = "" <;> simp [executeCode, h]

/-- Claim C10 witness: the hidden-prelude theorem instantiated on the
default empty hiddenCode, where setGlobalJavascript is never called and
only the user program is added. -/
theorem hidden_prelude_iff_witness :
    (((executeCode "" "user" (ExecResult.ok 1) 0 1 initState).2.globalJsCalls ≠ [])
      ↔ ("" : String) ≠ "") ∧
    (executeCode "" "user" (ExecResult.ok 1) 0 1 initState).2.globalJsCalls
      = (if ("" : String) = "" then [] else [("" : String)]) ∧
    (executeCode "" "user" (ExecResult.ok 1) 0 1 initState).2.scenesAdded = ["user"] :=
  hidden_prelude_iff "" "user" (ExecResult.ok 1) 0 1 initState
